import Mathlib

/-!
Shallow embedding of the do-todo task-timing application (single React
source file).  Timestamps and durations are modelled as `Int`
(JavaScript numbers at millisecond granularity); nullable number fields
(`completedAt`, `startedAt`, `warningMinutes`) are `Option Int`;
strings are `String`.  Each operation of the source is translated into
a Lean function of the same name; per-task bodies of the `map`-based
collection operations are factored into `...Task` functions.
-/

namespace DoTodo

/-- Task record, following the `@typedef Todo` of the source. -/
structure Todo where
  id : String
  title : String
  notes : String
  completed : Bool
  completedAt : Option Int
  createdAt : Int
  running : Bool
  elapsedMs : Int
  startedAt : Option Int
  warningMinutes : Option Int
  warned : Bool
deriving Repr, DecidableEq

/-- JavaScript truthiness of a nullable number: `null` and `0` are falsy. -/
def optNumTruthy : Option Int → Bool
  | none => false
  | some n => n != 0

/-- Characters removed by JavaScript `String.prototype.trim` (ASCII range). -/
def jsWhitespaceChar (c : Char) : Bool :=
  c == ' ' || c == '\t' || c == '\n' || c == '\r' || c == Char.ofNat 11 || c == Char.ofNat 12

/-- Trim whitespace from both ends of a character list. -/
def trimCharList (l : List Char) : List Char :=
  ((l.dropWhile jsWhitespaceChar).reverse.dropWhile jsWhitespaceChar).reverse

/-- Model of JavaScript `s.trim()`. -/
def jsTrim (s : String) : String := String.mk (trimCharList s.data)

/-- A string that is empty or consists only of whitespace. -/
def isBlank (s : String) : Bool := s.data.all jsWhitespaceChar

/-- Model of JavaScript `s.padStart(2, "0")`. -/
def jsPadStart2 (s : String) : String :=
  String.mk (List.replicate (2 - s.data.length) '0' ++ s.data)

/-- Render a number zero-padded to at least two digits. -/
def pad2 (n : Nat) : String := jsPadStart2 (toString n)

/-- Source `msToHMS`: format a millisecond duration as `hh:mm:ss`,
clamping negative input to zero seconds. -/
def msToHMS (ms : Int) : String :=
  let total : Nat := (max 0 (ms.fdiv 1000)).toNat
  let h := total / 3600
  let m := (total % 3600) / 60
  let s := total % 60
  pad2 h ++ ":" ++ pad2 m ++ ":" ++ pad2 s

/-- The `t.startedAt ? now - t.startedAt : 0` expression used by the
stop branch of `toggleRun` and by the warning check. -/
def stopExtra (t : Todo) (now : Int) : Int :=
  match t.startedAt with
  | some s => if s = 0 then 0 else now - s
  | none => 0

/-- Effective elapsed time of a task at instant `now`, as computed inline
by the warning-check effect and the row display:
`t.elapsedMs + (t.startedAt ? now - t.startedAt : 0)`. -/
def effectiveElapsed (t : Todo) (now : Int) : Int :=
  t.elapsedMs + stopExtra t now

/-- Per-task body of source `toggleRun`: completed tasks are untouched;
a running task is stopped (fold the open interval, close `startedAt`);
otherwise the task is started (`warned` reset for the new run). -/
def toggleRunTask (t : Todo) (now : Int) : Todo :=
  if t.completed then t
  else if t.running then
    { t with running := false, elapsedMs := t.elapsedMs + stopExtra t now, startedAt := none }
  else
    { t with running := true, startedAt := some now, warned := false }

/-- Source `toggleRun` over the collection. -/
def toggleRun (todos : List Todo) (i : String) (now : Int) : List Todo :=
  todos.map (fun t => if t.id = i then toggleRunTask t now else t)

/-- Per-task body of source `markComplete`: folds the open interval when
`t.running && t.startedAt`, then closes the timer and stamps completion. -/
def markCompleteTask (t : Todo) (now : Int) : Todo :=
  { t with running := false, startedAt := none,
           elapsedMs := if t.running && optNumTruthy t.startedAt
                        then t.elapsedMs + (now - t.startedAt.getD 0)
                        else t.elapsedMs,
           completed := true, completedAt := some now }

/-- Source `markComplete` over the collection. -/
def markComplete (todos : List Todo) (i : String) (now : Int) : List Todo :=
  todos.map (fun t => if t.id = i then markCompleteTask t now else t)

/-- Per-task body of source `undoComplete`. -/
def undoCompleteTask (t : Todo) : Todo :=
  { t with completed := false, completedAt := none }

/-- Source `undoComplete` over the collection. -/
def undoComplete (todos : List Todo) (i : String) : List Todo :=
  todos.map (fun t => if t.id = i then undoCompleteTask t else t)

/-- Source `removeTodo`. -/
def removeTodo (todos : List Todo) (i : String) : List Todo :=
  todos.filter (fun t => t.id != i)

/-- Source `clearCompleted`. -/
def clearCompleted (todos : List Todo) : List Todo :=
  todos.filter (fun t => !t.completed)

/-- The patch shape built by `TodoRow.saveEdits`, the only caller of
source `updateTodo`. -/
structure EditPatch where
  title : String
  notes : String
  warningMinutes : Option Int
deriving Repr, DecidableEq

/-- Spread `{ ...t, ...patch }` for an edit patch. -/
def applyPatch (t : Todo) (p : EditPatch) : Todo :=
  { t with title := p.title, notes := p.notes, warningMinutes := p.warningMinutes }

/-- Source `updateTodo` over the collection. -/
def updateTodo (todos : List Todo) (i : String) (p : EditPatch) : List Todo :=
  todos.map (fun t => if t.id = i then applyPatch t p else t)

/-- The patch built by `TodoRow.saveEdits`:
`title: tempTitle.trim() || todo.title`, untrimmed notes, and
`warningMinutes: tempWarn === "" ? null : Number(tempWarn)`
(the numeric field is modelled as an already-parsed `Option Int`). -/
def mkEditPatch (tempTitle tempNotes : String) (tempWarn : Option Int) (t : Todo) : EditPatch :=
  { title := if jsTrim tempTitle = "" then t.title else jsTrim tempTitle,
    notes := tempNotes,
    warningMinutes := tempWarn }

/-- The fresh record built by source `addTodo`; `uid()` and `Date.now()`
are passed in as `i` and `now`. -/
def mkTodo (i : String) (now : Int) (title notes : String) (wm : Option Int) : Todo :=
  { id := i, title := jsTrim title, notes := jsTrim notes,
    completed := false, completedAt := none, createdAt := now,
    running := false, elapsedMs := 0, startedAt := none,
    warningMinutes := wm, warned := false }

/-- Source `addTodo`: prepend the new record. -/
def addTodo (todos : List Todo) (i : String) (now : Int) (title notes : String)
    (wm : Option Int) : List Todo :=
  mkTodo i now title notes wm :: todos

/-- Source `CreateTodoCard.submit`: rejects a blank title
(`if (!title.trim()) return;`), otherwise calls `addTodo`. -/
def submitCreate (todos : List Todo) (i : String) (now : Int) (title notes : String)
    (wm : Option Int) : List Todo :=
  if jsTrim title = "" then todos else addTodo todos i now title notes wm

/-- Warning threshold in milliseconds: `t.warningMinutes * 60 * 1000`. -/
def warnMsOf (t : Todo) : Int := t.warningMinutes.getD 0 * 60 * 1000

/-- Whether the warning-check effect fires for task `t` at tick `now`:
the source returns early on `!t.running || !t.warningMinutes || t.warned`,
then tests `elapsed >= warnMs`. -/
def scanFires (t : Todo) (now : Int) : Bool :=
  t.running && optNumTruthy t.warningMinutes && !t.warned
    && decide (warnMsOf t ≤ effectiveElapsed t now)

/-- Effect of one alert scan on a task: a firing task gets `warned := true`. -/
def scanTask (t : Todo) (now : Int) : Todo :=
  if scanFires t now then { t with warned := true } else t

/-- Alert event emitted by the warning check (task title and threshold). -/
structure Alert where
  title : String
  minutes : Int
deriving Repr, DecidableEq

/-- The warning-check effect over the collection: updated collection plus
the list of emitted alert events. -/
def scan (todos : List Todo) (now : Int) : List Todo × List Alert :=
  (todos.map (fun t => scanTask t now),
   todos.filterMap (fun t =>
     if scanFires t now then some { title := t.title, minutes := t.warningMinutes.getD 0 }
     else none))

/-- JSON values, modelling the payload handled by `JSON.parse` /
`JSON.stringify` and the persistent store. -/
inductive Json where
  | null
  | jbool (b : Bool)
  | jnum (n : Int)
  | jstr (s : String)
  | jarr (elems : List Json)
  | jobj (fields : List (String × Json))

/-- JSON encoding of a nullable number field. -/
def optIntJson : Option Int → Json
  | none => Json.null
  | some n => Json.jnum n

/-- The JSON object `JSON.stringify` produces for one task record. -/
def encodeTodo (t : Todo) : Json :=
  Json.jobj [("id", Json.jstr t.id), ("title", Json.jstr t.title),
    ("notes", Json.jstr t.notes), ("completed", Json.jbool t.completed),
    ("completedAt", optIntJson t.completedAt), ("createdAt", Json.jnum t.createdAt),
    ("running", Json.jbool t.running), ("elapsedMs", Json.jnum t.elapsedMs),
    ("startedAt", optIntJson t.startedAt),
    ("warningMinutes", optIntJson t.warningMinutes), ("warned", Json.jbool t.warned)]

/-- Source `saveTodos`: the collection serializes to one JSON array. -/
def saveTodos (todos : List Todo) : Json := Json.jarr (todos.map encodeTodo)

/-- Read a string-valued JSON field. -/
def jsonStr : Json → String
  | Json.jstr s => s
  | _ => ""

/-- Read a boolean-valued JSON field. -/
def jsonBool : Json → Bool
  | Json.jbool b => b
  | _ => false

/-- Read a number-valued JSON field. -/
def jsonInt : Json → Int
  | Json.jnum n => n
  | _ => 0

/-- Read a nullable number-valued JSON field. -/
def jsonOptInt : Json → Option Int
  | Json.jnum n => some n
  | _ => none

/-- Field access on a parsed JSON object (`undefined` modelled as `null`). -/
def jfield (fields : List (String × Json)) (k : String) : Json :=
  (fields.lookup k).getD Json.null

/-- View a parsed JSON element as a task record.  Source `loadTodos`
performs no per-field validation: an array element is used as a task
directly, its fields read dynamically; this function is that dynamic
field access made explicit. -/
def decodeTodo (j : Json) : Todo :=
  match j with
  | Json.jobj fields =>
    { id := jsonStr (jfield fields "id"), title := jsonStr (jfield fields "title"),
      notes := jsonStr (jfield fields "notes"),
      completed := jsonBool (jfield fields "completed"),
      completedAt := jsonOptInt (jfield fields "completedAt"),
      createdAt := jsonInt (jfield fields "createdAt"),
      running := jsonBool (jfield fields "running"),
      elapsedMs := jsonInt (jfield fields "elapsedMs"),
      startedAt := jsonOptInt (jfield fields "startedAt"),
      warningMinutes := jsonOptInt (jfield fields "warningMinutes"),
      warned := jsonBool (jfield fields "warned") }
  | _ =>
    { id := "", title := "", notes := "", completed := false, completedAt := none,
      createdAt := 0, running := false, elapsedMs := 0, startedAt := none,
      warningMinutes := none, warned := false }

/-- State of the persistent store as seen by `loadTodos`: the key may be
absent (`!raw`), the stored string may fail `JSON.parse` (the `catch`
branch), or it parses to a JSON value. -/
inductive Stored where
  | absent
  | unparsable
  | payload (j : Json)

/-- Source `loadTodos`: absent or unparsable data loads as `[]`; a parsed
non-array loads as `[]`; a parsed array is used as the collection. -/
def loadTodos : Stored → List Todo
  | Stored.absent => []
  | Stored.unparsable => []
  | Stored.payload (Json.jarr elems) => elems.map decodeTodo
  | Stored.payload _ => []

/-- Modelled from the spec: the engine-level `start` operation.  The
source only exposes `toggleRun`, whose start branch is the
not-completed, not-running arm; invoking start on an already-running
task is unreachable through the source UI, and the spec defines that
path as a rejected no-op.  The reachable arms follow `toggleRun`. -/
def startTask (t : Todo) (now : Int) : Todo :=
  if t.completed then t
  else if t.running then t
  else { t with running := true, startedAt := some now, warned := false }

/-- Data-model invariant for one task: `running` iff `startedAt` is
present, and a completed task has its timer closed. -/
def TodoInv (t : Todo) : Prop :=
  (t.running = true ↔ t.startedAt.isSome = true)
    ∧ (t.completed = true → t.running = false ∧ t.startedAt = none)

instance (t : Todo) : Decidable (TodoInv t) := by
  unfold TodoInv; infer_instance

/-- The invariant over a collection. -/
def CollInv (l : List Todo) : Prop := ∀ t ∈ l, TodoInv t

instance (l : List Todo) : Decidable (CollInv l) := by
  unfold CollInv; infer_instance

/-- Concrete idle task used to instantiate universally quantified results. -/
def sampleBase : Todo :=
  { id := "t1", title := "Write report", notes := "draft", completed := false,
    completedAt := none, createdAt := 0, running := false, elapsedMs := 0,
    startedAt := none, warningMinutes := none, warned := false }

/-- Concrete running task. -/
def sampleRunning : Todo :=
  { sampleBase with running := true, startedAt := some 100, elapsedMs := 30 }

/-- Concrete completed task. -/
def sampleCompleted : Todo :=
  { sampleBase with completed := true, completedAt := some 5 }

/-- Concrete running task with a 5-minute warning threshold. -/
def sampleWarn : Todo :=
  { sampleBase with running := true, startedAt := some 1000, warningMinutes := some 5 }

/-- A character failing the predicate survives `dropWhile`. -/
lemma mem_dropWhile_of_not {p : Char → Bool} {x : Char} {l : List Char}
    (hx : p x = false) (h : x ∈ l) : x ∈ l.dropWhile p := by
  induction l with
  | nil => cases h
  | cons a tl ih =>
    rw [List.dropWhile_cons]
    rcases List.mem_cons.mp h with rfl | htl
    · simp [hx]
    · by_cases hpa : p a = true
      · simp only [hpa, if_true]
        exact ih htl
      · simp only [hpa, if_false]
        exact List.mem_cons_of_mem _ htl

/-- Dropping a predicate from an all-predicate list empties it. -/
lemma dropWhile_eq_nil_of_all {p : Char → Bool} {l : List Char}
    (h : l.all p = true) : l.dropWhile p = [] := by
  induction l with
  | nil => rfl
  | cons a tl ih =>
    rw [List.all_cons, Bool.and_eq_true] at h
    rw [List.dropWhile_cons]
    simp [h.1, ih h.2]

/-- A nonempty `dropWhile` result contains a character failing the predicate. -/
lemma exists_not_of_dropWhile_ne_nil {p : Char → Bool} {l : List Char}
    (h : l.dropWhile p ≠ []) : ∃ x ∈ l.dropWhile p, p x = false := by
  induction l with
  | nil => simp [List.dropWhile] at h
  | cons a tl ih =>
    rw [List.dropWhile_cons] at h ⊢
    by_cases hpa : p a = true
    · rw [if_pos hpa] at h ⊢
      exact ih h
    · rw [if_neg hpa]
      exact ⟨a, List.mem_cons_self a tl, Bool.eq_false_iff.mpr hpa⟩

/-- A nonempty character list gives a nonempty string. -/
lemma mk_ne_empty {l : List Char} (h : l ≠ []) : String.mk l ≠ "" := by
  intro he
  apply h
  have hd : (String.mk l).data = ("" : String).data := by rw [he]
  simpa using hd

/-- A blank string trims to the empty string. -/
lemma jsTrim_of_isBlank {s : String} (h : isBlank s = true) : jsTrim s = "" := by
  unfold isBlank at h
  unfold jsTrim trimCharList
  rw [dropWhile_eq_nil_of_all h]
  rfl

/-- Non-whitespace characters survive trimming. -/
lemma mem_trimCharList {x : Char} {l : List Char} (hx : jsWhitespaceChar x = false)
    (h : x ∈ l) : x ∈ trimCharList l := by
  unfold trimCharList
  rw [List.mem_reverse]
  apply mem_dropWhile_of_not hx
  rw [List.mem_reverse]
  exact mem_dropWhile_of_not hx h

/-- A non-blank string trims to a non-empty, non-blank string. -/
lemma jsTrim_of_not_blank {s : String} (h : isBlank s = false) :
    jsTrim s ≠ "" ∧ isBlank (jsTrim s) = false := by
  unfold isBlank at h
  obtain ⟨x, hxl, hx⟩ : ∃ x ∈ s.data, jsWhitespaceChar x = false := by
    by_contra hc
    push_neg at hc
    have : s.data.all jsWhitespaceChar = true := by
      rw [List.all_eq_true]
      intro x hxm
      have := hc x hxm
      revert this
      cases jsWhitespaceChar x <;> simp
    rw [this] at h
    cases h
  have hmem : x ∈ trimCharList s.data := mem_trimCharList hx hxl
  constructor
  · exact mk_ne_empty (List.ne_nil_of_mem hmem)
  · unfold isBlank jsTrim
    rw [Bool.eq_false_iff]
    intro hall
    rw [List.all_eq_true] at hall
    have := hall x (by simpa using hmem)
    rw [hx] at this
    cases this

/-- A non-empty trim result is non-blank. -/
lemma not_blank_of_jsTrim_ne {s : String} (h : jsTrim s ≠ "") :
    isBlank (jsTrim s) = false := by
  rcases hb : isBlank s with _ | _
  · exact (jsTrim_of_not_blank hb).2
  · exact absurd (jsTrim_of_isBlank hb) h

/-- The per-task stop/start toggle preserves the data-model invariant. -/
lemma todoInv_toggleRunTask {t : Todo} (now : Int) (h : TodoInv t) :
    TodoInv (toggleRunTask t now) := by
  unfold toggleRunTask
  by_cases hc : t.completed = true
  · simpa [hc] using h
  · by_cases hr : t.running = true
    · simp [TodoInv, hc, hr]
    · simp [TodoInv, hc, hr]

/-- Completing a task establishes the data-model invariant. -/
lemma todoInv_markCompleteTask (t : Todo) (now : Int) :
    TodoInv (markCompleteTask t now) := by
  simp [TodoInv, markCompleteTask]

/-- Undoing completion preserves the data-model invariant. -/
lemma todoInv_undoCompleteTask {t : Todo} (h : TodoInv t) :
    TodoInv (undoCompleteTask t) := by
  unfold TodoInv undoCompleteTask
  exact ⟨h.1, by simp⟩

/-- An edit patch preserves the data-model invariant. -/
lemma todoInv_applyPatch {t : Todo} (p : EditPatch) (h : TodoInv t) :
    TodoInv (applyPatch t p) := by
  simpa [TodoInv, applyPatch] using h

/-- The alert scan preserves the data-model invariant. -/
lemma todoInv_scanTask {t : Todo} (now : Int) (h : TodoInv t) :
    TodoInv (scanTask t now) := by
  unfold scanTask
  by_cases hf : scanFires t now = true
  · rw [if_pos hf]
    unfold TodoInv at h ⊢
    exact h
  · rw [if_neg hf]
    exact h

/-- A guarded map over the collection preserves the invariant when the
per-task function does. -/
lemma collInv_mapGuard {l : List Todo} (i : String) (g : Todo → Todo)
    (hg : ∀ t, TodoInv t → TodoInv (g t)) (h : CollInv l) :
    CollInv (l.map fun t => if t.id = i then g t else t) := by
  intro t ht
  rcases List.mem_map.mp ht with ⟨u, hu, rfl⟩
  by_cases hid : u.id = i
  · simpa [hid] using hg u (h u hu)
  · simpa [hid] using h u hu

/-- Filtering the collection preserves the invariant. -/
lemma collInv_filter {l : List Todo} (p : Todo → Bool) (h : CollInv l) :
    CollInv (l.filter p) := by
  intro t ht
  exact h t (List.mem_filter.mp ht).1

/-- A parsed task record decodes back to itself field-for-field. -/
lemma decodeTodo_encodeTodo (t : Todo) : decodeTodo (encodeTodo t) = t := by
  cases t with
  | mk id title notes completed completedAt createdAt running elapsedMs startedAt
      warningMinutes warned =>
    cases completedAt <;> cases startedAt <;> cases warningMinutes <;> rfl

/-- A negative duration renders as zero. -/
lemma msToHMS_of_neg {ms : Int} (h : ms < 0) : msToHMS ms = "00:00:00" := by
  cases ms with
  | ofNat n => exact absurd h (not_lt.mpr (Int.ofNat_nonneg n))
  | negSucc k =>
    have h1 : (Int.negSucc k).fdiv 1000 = Int.negSucc (k / 1000) := rfl
    have h2 : max (0 : Int) (Int.negSucc (k / 1000)) = 0 :=
      max_eq_left (le_of_lt (Int.negSucc_lt_zero _))
    unfold msToHMS
    rw [h1, h2]
    rfl

/-- Decomposition of the formatter output for non-negative input. -/
lemma msToHMS_decomp {ms : Int} (h : 0 ≤ ms) :
    ∃ hh mm ss : Nat, mm < 60 ∧ ss < 60 ∧ hh * 3600 + mm * 60 + ss = ms.toNat / 1000
      ∧ msToHMS ms = pad2 hh ++ ":" ++ pad2 mm ++ ":" ++ pad2 ss := by
  obtain ⟨n, rfl⟩ := Int.eq_ofNat_of_zero_le h
  refine ⟨n / 1000 / 3600, n / 1000 % 3600 / 60, n / 1000 % 60, ?_, ?_, ?_, ?_⟩
  · exact Nat.div_lt_of_lt_mul (Nat.mod_lt _ (by norm_num))
  · exact Nat.mod_lt _ (by norm_num)
  · have e1 := Nat.div_add_mod (n / 1000) 3600
    have e2 := Nat.div_add_mod (n / 1000 % 3600) 60
    have e3 : n / 1000 % 3600 % 60 = n / 1000 % 60 := Nat.mod_mod_of_dvd _ (by norm_num)
    have e4 : (Int.ofNat n).toNat = n := rfl
    omega
  · have h1 : (↑n : Int).fdiv 1000 = ((n / 1000 : Nat) : Int) := by
      simpa using (Int.ofNat_fdiv n 1000).symm
    have h2 : max (0 : Int) ((n / 1000 : Nat) : Int) = ((n / 1000 : Nat) : Int) :=
      max_eq_right (Int.ofNat_zero_le _)
    unfold msToHMS
    rw [h1, h2]
    rfl

/-- C1 counterexample: the claim that the elapsed addition on stop/complete
is clamped to be non-negative is false.  For a running task with
`startedAt = 100` and `elapsedMs = 30`, stopping at `now = 50` (clock skew)
yields `elapsedMs = -20`: the accumulated time decreases and becomes
negative; completing does the same. -/
theorem c1_counterexample :
    (toggleRunTask sampleRunning 50).elapsedMs = -20
      ∧ (toggleRunTask sampleRunning 50).elapsedMs < 0
      ∧ (toggleRunTask sampleRunning 50).elapsedMs < sampleRunning.elapsedMs
      ∧ (markCompleteTask sampleRunning 50).elapsedMs = -20 := by
  decide

/-- C1 (amended): for every running task with an open interval, stopping
or completing adds `now - startedAt` to `elapsedMs` with no clamping, so
clock skew (`now < startedAt`) makes `elapsedMs` decrease or go negative. -/
theorem c1_stop_complete_unclamped (t : Todo) (now s : Int)
    (hr : t.running = true) (hc : t.completed = false)
    (hs : t.startedAt = some s) (hs0 : s ≠ 0) :
    (toggleRunTask t now).elapsedMs = t.elapsedMs + (now - s)
      ∧ (markCompleteTask t now).elapsedMs = t.elapsedMs + (now - s) := by
  unfold toggleRunTask markCompleteTask stopExtra
  simp [hr, hc, hs, hs0, optNumTruthy]

/-- C1 witness: the amended statement at a concrete skewed input. -/
theorem c1_stop_complete_unclamped_witness :
    (toggleRunTask sampleRunning 50).elapsedMs = sampleRunning.elapsedMs + (50 - 100)
      ∧ (markCompleteTask sampleRunning 50).elapsedMs = sampleRunning.elapsedMs + (50 - 100) :=
  c1_stop_complete_unclamped sampleRunning 50 100 (by decide) (by decide) (by decide)
    (by decide)

/-- C2: the alert scan fires at most one alert per open interval.  It
fires exactly when the task is running, has a (positive) warning
threshold, is not yet warned, and its effective elapsed time has reached
`warningMinutes * 60000` ms; firing sets `warned := true` and emits one
alert with the task title and threshold; a warned, non-running, or
threshold-free task never fires; a fired task cannot fire again at any
later tick; and starting the task (the start branch of `toggleRun`)
resets `warned` to `false`. -/
theorem c2_alert_once_per_interval (t : Todo) (now now2 : Int) :
    (t.warningMinutes = none → scanFires t now = false)
      ∧ (t.running = false → scanFires t now = false ∧ scanTask t now = t)
      ∧ (t.warned = true → scanFires t now = false ∧ scanTask t now = t)
      ∧ (∀ w : Int, t.warningMinutes = some w → 0 < w →
          (scanFires t now = true ↔
            t.running = true ∧ t.warned = false ∧ w * 60000 ≤ effectiveElapsed t now))
      ∧ (scanFires t now = true →
          (scanTask t now).warned = true
            ∧ scanFires (scanTask t now) now2 = false
            ∧ (scan [t] now).2 = [{ title := t.title, minutes := t.warningMinutes.getD 0 }]
            ∧ (scan [t] now).1 = [{ t with warned := true }])
      ∧ (t.completed = false → t.running = false → (toggleRunTask t now).warned = false) := by
  refine ⟨?_, ?_, ?_, ?_, ?_, ?_⟩
  · intro h
    simp [scanFires, h, optNumTruthy]
  · intro h
    exact ⟨by simp [scanFires, h], by simp [scanTask, scanFires, h]⟩
  · intro h
    exact ⟨by simp [scanFires, h], by simp [scanTask, scanFires, h]⟩
  · intro w hw hw0
    have hms : warnMsOf t = w * 60000 := by
      simp [warnMsOf, hw]
      ring
    simp only [scanFires, hms, Bool.and_eq_true, Bool.not_eq_true', decide_eq_true_iff,
      optNumTruthy, hw, bne_iff_ne, ne_eq]
    constructor
    · rintro ⟨⟨⟨h1, _⟩, h3⟩, h4⟩
      exact ⟨h1, h3, h4⟩
    · rintro ⟨h1, h3, h4⟩
      exact ⟨⟨⟨h1, by omega⟩, h3⟩, h4⟩
  · intro h
    have hst : scanTask t now = { t with warned := true } := by
      rw [scanTask, if_pos h]
    refine ⟨by rw [hst], ?_, by simp [scan, h], by simp [scan, hst]⟩
    rw [hst]
    simp [scanFires]
  · intro hc hr
    simp [toggleRunTask, hc, hr]

/-- C2 witness: a 5-minute-threshold task running since tick 1000 fires
at tick 301000 and cannot fire again afterwards. -/
theorem c2_alert_once_per_interval_witness :
    scanFires sampleWarn 301000 = true
      ∧ (scanTask sampleWarn 301000).warned = true
      ∧ scanFires (scanTask sampleWarn 301000) 999999999 = false := by
  have h := c2_alert_once_per_interval sampleWarn 301000 999999999
  have h1 : scanFires sampleWarn 301000 = true :=
    (h.2.2.2.1 5 rfl (by norm_num)).mpr ⟨rfl, rfl, by decide⟩
  exact ⟨h1, (h.2.2.2.2.1 h1).1, (h.2.2.2.2.1 h1).2.1⟩

/-- C3: `start` is a no-op on a completed task; on a non-completed,
non-running task it sets `running := true`, `startedAt := now`,
`warned := false`, leaving every other field (in particular `elapsedMs`)
unchanged, and agrees with the start branch of the source `toggleRun`;
on an already-running task it is a rejected no-op and does not reset
`startedAt`. -/
theorem c3_start_semantics (t : Todo) (now : Int) :
    (t.completed = true → startTask t now = t)
      ∧ (t.running = true → startTask t now = t ∧ (startTask t now).startedAt = t.startedAt)
      ∧ (t.completed = false → t.running = false →
          startTask t now = { t with running := true, startedAt := some now, warned := false }
            ∧ startTask t now = toggleRunTask t now
            ∧ (startTask t now).elapsedMs = t.elapsedMs
            ∧ (startTask t now).title = t.title
            ∧ (startTask t now).notes = t.notes
            ∧ (startTask t now).completed = false
            ∧ (startTask t now).completedAt = t.completedAt
            ∧ (startTask t now).createdAt = t.createdAt
            ∧ (startTask t now).warningMinutes = t.warningMinutes
            ∧ (startTask t now).warned = false
            ∧ (startTask t now).running = true
            ∧ (startTask t now).startedAt = some now) := by
  refine ⟨?_, ?_, ?_⟩
  · intro h
    simp [startTask, h]
  · intro h
    by_cases hc : t.completed = true <;> simp [startTask, h, hc]
  · intro hc hr
    simp [startTask, toggleRunTask, hc, hr]

/-- C3 witness: the three arms at concrete tasks. -/
theorem c3_start_semantics_witness :
    startTask sampleCompleted 7 = sampleCompleted
      ∧ startTask sampleRunning 7 = sampleRunning
      ∧ startTask sampleBase 7
          = { sampleBase with running := true, startedAt := some 7, warned := false } :=
  ⟨(c3_start_semantics sampleCompleted 7).1 (by decide),
   ((c3_start_semantics sampleRunning 7).2.1 (by decide)).1,
   ((c3_start_semantics sampleBase 7).2.2 (by decide) (by decide)).1⟩

/-- C4: completing a running task folds the open interval into
`elapsedMs` with the same accumulation expression as the stop branch,
then yields `running = false`, `startedAt` absent, `completed = true`,
and `completedAt = now`. -/
theorem c4_complete_folds_interval (t : Todo) (now : Int) (hr : t.running = true) :
    markCompleteTask t now =
        { t with running := false, startedAt := none,
                 elapsedMs := t.elapsedMs + stopExtra t now,
                 completed := true, completedAt := some now }
      ∧ (markCompleteTask t now).running = false
      ∧ (markCompleteTask t now).startedAt = none
      ∧ (markCompleteTask t now).completed = true
      ∧ (markCompleteTask t now).completedAt = some now
      ∧ (t.completed = false →
          (markCompleteTask t now).elapsedMs = (toggleRunTask t now).elapsedMs) := by
  have he : (if optNumTruthy t.startedAt = true
        then t.elapsedMs + (now - t.startedAt.getD 0) else t.elapsedMs)
      = t.elapsedMs + stopExtra t now := by
    rcases hsa : t.startedAt with _ | s
    · simp [hsa, optNumTruthy, stopExtra]
    · by_cases hs0 : s = 0
      · simp [hsa, hs0, optNumTruthy, stopExtra]
      · simp [hsa, hs0, optNumTruthy, stopExtra]
  refine ⟨?_, rfl, rfl, rfl, rfl, ?_⟩
  · unfold markCompleteTask
    rw [hr]
    simp only [Bool.true_and]
    rw [he]
  · intro hc
    simp only [markCompleteTask, toggleRunTask, hc, hr, Bool.true_and, Bool.false_eq_true,
      if_false, if_true]
    rw [he]

/-- C4 witness: completing the concrete running task at tick 500. -/
theorem c4_complete_folds_interval_witness :
    markCompleteTask sampleRunning 500 =
      { sampleRunning with
          running := false
          startedAt := none
          elapsedMs := sampleRunning.elapsedMs + stopExtra sampleRunning 500
          completed := true
          completedAt := some 500 } :=
  (c4_complete_folds_interval sampleRunning 500 (by decide)).1

/-- C5: every collection operation (add, start/stop toggle, complete,
uncomplete, edit, delete, clear-completed, alert scan) preserves the
data-model invariants: `running` iff `startedAt` present, and a
completed task has `running = false` and `startedAt` absent. -/
theorem c5_invariants_preserved (l : List Todo) (i : String) (now : Int)
    (title notes : String) (wm : Option Int) (p : EditPatch) (h : CollInv l) :
    CollInv (addTodo l i now title notes wm)
      ∧ CollInv (toggleRun l i now)
      ∧ CollInv (markComplete l i now)
      ∧ CollInv (undoComplete l i)
      ∧ CollInv (updateTodo l i p)
      ∧ CollInv (removeTodo l i)
      ∧ CollInv (clearCompleted l)
      ∧ CollInv (scan l now).1 := by
  refine ⟨?_, ?_, ?_, ?_, ?_, ?_, ?_, ?_⟩
  · intro t ht
    unfold addTodo at ht
    rcases List.mem_cons.mp ht with rfl | htl
    · simp [TodoInv, mkTodo]
    · exact h t htl
  · exact collInv_mapGuard i _ (fun t ht => todoInv_toggleRunTask now ht) h
  · exact collInv_mapGuard i _ (fun t _ => todoInv_markCompleteTask t now) h
  · exact collInv_mapGuard i _ (fun t ht => todoInv_undoCompleteTask ht) h
  · exact collInv_mapGuard i _ (fun t ht => todoInv_applyPatch p ht) h
  · exact collInv_filter _ h
  · exact collInv_filter _ h
  · intro t ht
    rcases List.mem_map.mp ht with ⟨u, hu, rfl⟩
    exact todoInv_scanTask now (h u hu)

/-- C5 witness: the toggle applied to a concrete two-task collection
satisfying the invariant. -/
theorem c5_invariants_preserved_witness :
    CollInv (toggleRun [sampleRunning, sampleCompleted] "t1" 77) :=
  (c5_invariants_preserved [sampleRunning, sampleCompleted] "t1" 77 "a" "b" none
    { title := "a", notes := "b", warningMinutes := none } (by decide)).2.1

/-- C6: saving any collection and loading it back reproduces the same
collection field-for-field; an absent or unparsable payload, or a parsed
payload that is not an array, loads as the empty collection. -/
theorem c6_save_load_roundtrip (l : List Todo) (j : Json) :
    loadTodos (Stored.payload (saveTodos l)) = l
      ∧ loadTodos Stored.absent = []
      ∧ loadTodos Stored.unparsable = []
      ∧ ((∀ elems : List Json, j ≠ Json.jarr elems) → loadTodos (Stored.payload j) = []) := by
  refine ⟨?_, rfl, rfl, ?_⟩
  · show (l.map encodeTodo).map decodeTodo = l
    rw [List.map_map]
    have hco : decodeTodo ∘ encodeTodo = id := by
      funext t
      exact decodeTodo_encodeTodo t
    rw [hco, List.map_id]
  · intro h
    cases j with
    | jarr elems => exact absurd rfl (h elems)
    | null => rfl
    | jbool b => rfl
    | jnum n => rfl
    | jstr s => rfl
    | jobj fields => rfl

/-- C6 witness: round trip of a concrete two-task collection, and the
empty reload of a parsed non-array payload. -/
theorem c6_save_load_roundtrip_witness :
    loadTodos (Stored.payload (saveTodos [sampleBase, sampleRunning]))
        = [sampleBase, sampleRunning]
      ∧ loadTodos (Stored.payload Json.null) = [] :=
  ⟨(c6_save_load_roundtrip [sampleBase, sampleRunning] Json.null).1,
   (c6_save_load_roundtrip [sampleBase, sampleRunning] Json.null).2.2.2
     (fun _ hx => Json.noConfusion hx)⟩

/-- C7: no operation produces a task with an empty or whitespace-only
title: creation with a blank title leaves the collection unchanged;
creation with a non-blank title stores a non-blank trimmed title; and
saving an edit on a task whose title is non-blank keeps the title
non-blank (a blank edit falls back to the previous title). -/
theorem c7_no_blank_title (todos : List Todo) (i : String) (now : Int)
    (title notes : String) (wm : Option Int)
    (tempTitle tempNotes : String) (tempWarn : Option Int) (t : Todo) :
    (isBlank title = true → submitCreate todos i now title notes wm = todos)
      ∧ (isBlank title = false →
          submitCreate todos i now title notes wm = mkTodo i now title notes wm :: todos
            ∧ isBlank (mkTodo i now title notes wm).title = false
            ∧ (mkTodo i now title notes wm).title ≠ "")
      ∧ (isBlank t.title = false →
          isBlank (applyPatch t (mkEditPatch tempTitle tempNotes tempWarn t)).title = false) := by
  refine ⟨?_, ?_, ?_⟩
  · intro h
    simp [submitCreate, jsTrim_of_isBlank h]
  · intro h
    obtain ⟨hne, hnb⟩ := jsTrim_of_not_blank h
    refine ⟨by simp [submitCreate, hne, addTodo], ?_, ?_⟩
    · simpa [mkTodo] using hnb
    · simpa [mkTodo] using hne
  · intro h
    by_cases he : jsTrim tempTitle = ""
    · simpa [applyPatch, mkEditPatch, he] using h
    · simpa [applyPatch, mkEditPatch, he] using not_blank_of_jsTrim_ne he

/-- C7 witness: blank creation rejected, non-blank creation stored, and
a blank edit falling back to the previous title, at concrete inputs. -/
theorem c7_no_blank_title_witness :
    submitCreate [] "i1" 3 "   " "" none = []
      ∧ submitCreate [] "i1" 3 "  task  " "" none = [mkTodo "i1" 3 "  task  " "" none]
      ∧ isBlank (applyPatch sampleBase (mkEditPatch "  " "n" none sampleBase)).title
          = false :=
  ⟨(c7_no_blank_title [] "i1" 3 "   " "" none "x" "y" none sampleBase).1 (by decide),
   ((c7_no_blank_title [] "i1" 3 "  task  " "" none "x" "y" none sampleBase).2.1
     (by decide)).1,
   (c7_no_blank_title [] "i1" 3 "t" "" none "  " "n" none sampleBase).2.2 (by decide)⟩

/-- C8 counterexample: invoking complete on an already-completed task
does not leave `completedAt` unchanged; it re-stamps it with the current
instant (`some 5` becomes `some 10`). -/
theorem c8_counterexample :
    sampleCompleted.completed = true
      ∧ sampleCompleted.completedAt = some 5
      ∧ (markCompleteTask sampleCompleted 10).completedAt = some 10
      ∧ (markCompleteTask sampleCompleted 10).completedAt ≠ sampleCompleted.completedAt := by
  decide

/-- C8 (amended): `completedAt` is set to the current instant on every
complete invocation — including on an already-completed task, where it
is re-stamped while every other field stays unchanged — and cleared
exactly when completed transitions to false by uncomplete; the toggle,
the alert scan, and edits never change it. -/
theorem c8_completedAt_transitions (t : Todo) (now : Int) (p : EditPatch) :
    (markCompleteTask t now).completedAt = some now
      ∧ (markCompleteTask t now).completed = true
      ∧ (undoCompleteTask t).completedAt = none
      ∧ (undoCompleteTask t).completed = false
      ∧ (toggleRunTask t now).completedAt = t.completedAt
      ∧ (scanTask t now).completedAt = t.completedAt
      ∧ (applyPatch t p).completedAt = t.completedAt
      ∧ (t.completed = true → t.running = false → t.startedAt = none →
          markCompleteTask t now = { t with completedAt := some now }) := by
  refine ⟨rfl, rfl, rfl, rfl, ?_, ?_, rfl, ?_⟩
  · unfold toggleRunTask
    by_cases hc : t.completed = true <;> by_cases hr : t.running = true <;> simp [hc, hr]
  · unfold scanTask
    by_cases hf : scanFires t now = true <;> simp [hf]
  · intro hc hr hs
    cases t with
    | mk id title notes completed completedAt createdAt running elapsedMs startedAt
        wm warned =>
      simp only at hc hr hs
      subst hc
      subst hr
      subst hs
      simp [markCompleteTask, optNumTruthy]

/-- C8 witness: the amended statement at the concrete completed task. -/
theorem c8_completedAt_transitions_witness :
    markCompleteTask sampleCompleted 10 = { sampleCompleted with completedAt := some 10 } :=
  (c8_completedAt_transitions sampleCompleted 10
      { title := "a", notes := "b", warningMinutes := none }).2.2.2.2.2.2.2
    (by decide) (by decide) (by decide)

/-- C9: the formatter renders a non-negative duration as
hours:minutes:seconds built from zero-padded fields with minutes and
seconds below 60 (two digits each, hours at least two digits and
unbounded), matching the expected examples, and clamps every negative
input to 00:00:00. -/
theorem c9_msToHMS_format (ms : Int) :
    (ms < 0 → msToHMS ms = "00:00:00")
      ∧ (0 ≤ ms → ∃ hh mm ss : Nat, mm < 60 ∧ ss < 60
          ∧ hh * 3600 + mm * 60 + ss = ms.toNat / 1000
          ∧ msToHMS ms = pad2 hh ++ ":" ++ pad2 mm ++ ":" ++ pad2 ss)
      ∧ (∀ n : Nat, n < 100 → (pad2 n).length = 2)
      ∧ (∀ n : Nat, 2 ≤ (pad2 n).length)
      ∧ msToHMS 0 = "00:00:00" ∧ msToHMS 61000 = "00:01:01"
      ∧ msToHMS 3661000 = "01:01:01" ∧ msToHMS 86442000 = "24:00:42" := by
  refine ⟨fun h => msToHMS_of_neg h, fun h => msToHMS_decomp h, by decide, ?_,
    rfl, rfl, rfl, rfl⟩
  intro n
  show 2 ≤ (String.mk (List.replicate (2 - (toString n).data.length) '0'
    ++ (toString n).data)).length
  have hlen : (String.mk (List.replicate (2 - (toString n).data.length) '0'
      ++ (toString n).data)).length
      = (2 - (toString n).data.length) + (toString n).data.length := by
    rw [String.length_mk, List.length_append, List.length_replicate]
  omega

/-- C9 witness: the negative clamp, the decomposition, and the two-digit
field width at concrete inputs. -/
theorem c9_msToHMS_format_witness :
    msToHMS (-1000) = "00:00:00"
      ∧ (∃ hh mm ss : Nat, mm < 60 ∧ ss < 60
          ∧ hh * 3600 + mm * 60 + ss = (3661000 : Int).toNat / 1000
          ∧ msToHMS 3661000 = pad2 hh ++ ":" ++ pad2 mm ++ ":" ++ pad2 ss)
      ∧ (pad2 7).length = 2 :=
  ⟨(c9_msToHMS_format (-1000)).1 (by norm_num),
   (c9_msToHMS_format 3661000).2.1 (by norm_num),
   (c9_msToHMS_format 0).2.2.1 7 (by norm_num)⟩

/-- C10: adding a task prepends the new record to the front of the
collection, with defaults not-completed, no completion stamp, not
running, zero elapsed, no open interval, not warned, the trimmed title
and notes, the supplied threshold, and the creation instant; the
pre-existing records form the unchanged tail. -/
theorem c10_add_prepends_defaults (todos : List Todo) (i : String) (now : Int)
    (title notes : String) (wm : Option Int) :
    addTodo todos i now title notes wm = mkTodo i now title notes wm :: todos
      ∧ (mkTodo i now title notes wm).id = i
      ∧ (mkTodo i now title notes wm).title = jsTrim title
      ∧ (mkTodo i now title notes wm).notes = jsTrim notes
      ∧ (mkTodo i now title notes wm).completed = false
      ∧ (mkTodo i now title notes wm).completedAt = none
      ∧ (mkTodo i now title notes wm).createdAt = now
      ∧ (mkTodo i now title notes wm).running = false
      ∧ (mkTodo i now title notes wm).elapsedMs = 0
      ∧ (mkTodo i now title notes wm).startedAt = none
      ∧ (mkTodo i now title notes wm).warningMinutes = wm
      ∧ (mkTodo i now title notes wm).warned = false :=
  ⟨rfl, rfl, rfl, rfl, rfl, rfl, rfl, rfl, rfl, rfl, rfl, rfl⟩

end DoTodo
